import Mathlib

/-!
Verification of the source-structure extraction engine of `dev_coder`
(`ex-1/p-3.py`: class `Treesitter` with `parse`, `_extract_methods_in_class`,
`_extract_doc_comment`, `_is_descendant_of`, the `LANGUAGE_QUERIES` table and
`Treesitter.__init__`; and `p-2.py`: `analyze_python_code`'s per-query loop).

The external tree-sitter engine is modelled shallowly: a parse tree is a rose
tree of nodes carrying a kind tag and the source text of their byte range; a
node's identity is its address (the list of child indices from the root), so
`node.parent` is `dropLast` on the address and `node.prev_sibling` walks the
parent's child list.  The structural patterns of `LANGUAGE_QUERIES` are
modelled by their matching semantics: a pattern of the shape
`(DECL name: (ID) @cap)` captures, for every node of kind `DECL` in the
scope's subtree (preorder), its first child of kind `ID`; a bare
`((KIND) @cap)` pattern captures every node of kind `KIND` itself.
-/

namespace DevCoder

mutual
/-- A syntax-tree node of the external parsing engine: kind tag, source text
of the node's byte range, and child nodes in order.  (The child list is a
mutually defined forest so that traversals are structurally recursive.) -/
inductive Tree where
  | node (kind : String) (text : String) (children : Forest)

inductive Forest where
  | nil
  | cons (t : Tree) (f : Forest)
end

def Forest.ofList : List Tree → Forest
  | [] => .nil
  | t :: ts => .cons t (Forest.ofList ts)

def Forest.toList : Forest → List Tree
  | .nil => []
  | .cons t f => t :: f.toList

/-- Build a node from a plain child list. -/
def tnode (kind text : String) (children : List Tree) : Tree :=
  .node kind text (Forest.ofList children)

def Tree.kind : Tree → String
  | .node k _ _ => k

def Tree.text : Tree → String
  | .node _ t _ => t

def Tree.children : Tree → List Tree
  | .node _ _ cs => cs.toList

/-- Resolve an address (list of child indices) to the node it denotes. -/
def nodeAt : Tree → List Nat → Option Tree
  | t, [] => some t
  | t, i :: rest =>
    match t.children[i]? with
    | some c => nodeAt c rest
    | none => none

mutual
/-- All addresses of the subtree rooted at a node, in preorder
(document order), relative to that node. -/
def subAddrs : Tree → List (List Nat)
  | .node _ _ cs => [] :: subAddrsF 0 cs

def subAddrsF : Nat → Forest → List (List Nat)
  | _, .nil => []
  | i, .cons c rest => (subAddrs c).map (fun a => i :: a) ++ subAddrsF (i + 1) rest
end

/-- Matching semantics of a query of shape `(DECL name: (ID) @cap)` (possibly
alternated over several `DECL` kinds): for every node in the scope whose kind
is one of `declKinds`, capture its first child of kind `nameKind`. -/
def namedDeclCaptures (declKinds : List String) (nameKind : String)
    (root : Tree) : List (List Nat) :=
  (subAddrs root).filterMap (fun a =>
    match nodeAt root a with
    | some u =>
      if u.kind ∈ declKinds then
        match u.children.findIdx? (fun c => c.kind == nameKind) with
        | some i => some (a ++ [i])
        | none => none
      else none
    | none => none)

/-- Matching semantics of a query of shape `((KIND) @cap)` (possibly
alternated): capture every node of one of the given kinds itself. -/
def selfCaptures (kinds : List String) (root : Tree) : List (List Nat) :=
  (subAddrs root).filterMap (fun a =>
    match nodeAt root a with
    | some u => if u.kind ∈ kinds then some a else none
    | none => none)

/-- The Python `class_query`: `(class_definition name: (identifier) @class.name)`. -/
def pyClassCaptures : Tree → List (List Nat) :=
  namedDeclCaptures ["class_definition"] "identifier"

/-- The Python `method_query`: `(function_definition name: (identifier) @function.name)`. -/
def pyFunctionCaptures : Tree → List (List Nat) :=
  namedDeclCaptures ["function_definition"] "identifier"

/-- The Python `doc_query`: `(expression_statement (string) @comment)`. -/
def pyDocCaptures : Tree → List (List Nat) :=
  namedDeclCaptures ["expression_statement"] "string"

/-- Python's `str.strip()` on the character list: drop leading and trailing
whitespace. -/
def stripList (l : List Char) : List Char :=
  (((l.dropWhile Char.isWhitespace).reverse).dropWhile Char.isWhitespace).reverse

/-- Python's `str.strip()`. -/
def pyStrip (s : String) : String :=
  ⟨stripList s.data⟩

/-- One step bound of `_is_descendant_of`'s parent-chain walk.  The Python
loop `while current: ... current = current.parent` starts at the node's
parent and walks `parent` (here `dropLast` on the address) up to the root;
the walk takes at most `length` steps, and that bound is passed explicitly
so the recursion is structural. -/
def walkUpGo (ancestor : List Nat) : Nat → List Nat → Bool
  | 0, cur => cur == ancestor
  | n + 1, cur => cur == ancestor || walkUpGo ancestor n cur.dropLast

/-- The parent-chain walk of `Treesitter._is_descendant_of`, started at an
arbitrary node of the chain. -/
def walkUp (ancestor cur : List Nat) : Bool :=
  walkUpGo ancestor cur.length cur

/-- `Treesitter._is_descendant_of(node, ancestor)`: walk `node`'s parent
chain (the root's parent is `None`, so a root node has no chain) and report
whether `ancestor` is found. -/
def is_descendant_of (node ancestor : List Nat) : Bool :=
  match node with
  | [] => false
  | _ :: _ => walkUp ancestor node.dropLast

/-- The enclosing-type loop of `Treesitter.parse`: try the known class nodes
in discovery order, first match (by `_is_descendant_of`) wins, and return
that class's recorded name; `none` when no known class encloses the node. -/
def resolveEnclosingType (methodAddr : List Nat)
    (classes : List (List Nat × String)) : Option String :=
  match classes.find? (fun p => is_descendant_of methodAddr p.1) with
  | some p => some p.2
  | none => none

/-- The node kinds `_extract_doc_comment` walks through without stopping even
when the doc query yields no capture (hard-coded in the source). -/
def transparentKinds : List String :=
  ["comment", "block_comment", "line_comment", "expression_statement"]

/-- The sibling-walk loop body of `Treesitter._extract_doc_comment`.
`prevs` is the chain of preceding siblings of the declaration node, nearest
first (the order `node.prev_sibling` traverses them); `acc` is the
accumulated text.  For each sibling the doc query runs over the sibling's
subtree; each captured node with non-empty text is prepended as
`text + "\n" + acc` in match order; a sibling with no matches stops the walk
unless its kind is transparent. -/
def docLoop (docq : Tree → List (List Nat)) : List Tree → String → String
  | [], acc => acc
  | t :: rest, acc =>
    let caps := docq t
    let acc' := caps.foldl (fun s a =>
      match nodeAt t a with
      | some u => if u.text = "" then s else u.text ++ "\n" ++ s
      | none => s) acc
    if caps.isEmpty then
      if t.kind ∈ transparentKinds then docLoop docq rest acc
      else acc
    else docLoop docq rest acc'

/-- `Treesitter._extract_doc_comment`, as a function of the declaration
node's preceding-sibling chain (nearest first): run the sibling walk and
strip the result. -/
def extract_doc_comment (docq : Tree → List (List Nat)) (prevs : List Tree) :
    String :=
  pyStrip (docLoop docq prevs "")

/-- The preceding-sibling chain of the node at `addr`, nearest sibling
first; the root has no siblings. -/
def prevSiblings (root : Tree) (addr : List Nat) : List Tree :=
  match addr with
  | [] => []
  | _ :: _ =>
    match nodeAt root addr.dropLast with
    | some par => (par.children.take (addr.getLastD 0)).reverse
    | none => []

/-- `TreesitterClassNode` (name, `node.text` of the class node, the member
declaration list, and the class node's identity). -/
structure TreesitterClassNode where
  name : String
  source_code : String
  method_declarations : List String
  node_id : List Nat
deriving DecidableEq, Repr

/-- `TreesitterMethodNode` (name, resolved doc comment, `node.text` of the
declaration node, the node's identity, and the enclosing class name if any). -/
structure TreesitterMethodNode where
  name : String
  doc_comment : String
  method_source_code : String
  node_id : List Nat
  class_name : Option String
deriving DecidableEq, Repr

/-- The three compiled queries a `Treesitter` instance holds, as their
matching semantics. -/
structure Treesitter where
  class_query : Tree → List (List Nat)
  method_query : Tree → List (List Nat)
  doc_query : Tree → List (List Nat)

/-- `Treesitter._extract_methods_in_class`: run the method query scoped to
the class subtree; for each name capture with non-empty text append the
capture's parent node's full source text. -/
def extract_methods_in_class (ts : Treesitter) (class_node : Tree) :
    List String :=
  (ts.method_query class_node).filterMap (fun c =>
    match nodeAt class_node c with
    | some nameNode =>
      if nameNode.text = "" then none
      else
        match nodeAt class_node c.dropLast with
        | some p => some p.text
        | none => none
    | none => none)

/-- The class pass of `Treesitter.parse`: for every class-name capture with
non-empty text, record the capture's parent (the `class_definition` node) as
a `TreesitterClassNode`, with its member listing from
`_extract_methods_in_class`. -/
def parseClasses (ts : Treesitter) (root : Tree) : List TreesitterClassNode :=
  (ts.class_query root).filterMap (fun c =>
    match nodeAt root c with
    | some nameNode =>
      if nameNode.text = "" then none
      else
        match nodeAt root c.dropLast with
        | some classNode =>
          some { name := nameNode.text
                 source_code := classNode.text
                 method_declarations := extract_methods_in_class ts classNode
                 node_id := c.dropLast }
        | none => none
    | none => none)

/-- The `class_nodes` list and `class_name_by_node` mapping the class pass
accumulates, in discovery order (node identities are distinct addresses, so
the dictionary lookup is the association of each recorded class node with
its name). -/
def classPairs (ts : Treesitter) (root : Tree) : List (List Nat × String) :=
  (parseClasses ts root).map (fun cr => (cr.node_id, cr.name))

/-- The method pass of `Treesitter.parse`: for every function-name capture
with non-empty text, build a `TreesitterMethodNode` whose documentation
comes from the sibling walk and whose `class_name` comes from the first
recorded class node that `_is_descendant_of` accepts. -/
def parseMethods (ts : Treesitter) (root : Tree) : List TreesitterMethodNode :=
  (ts.method_query root).filterMap (fun c =>
    match nodeAt root c with
    | some nameNode =>
      if nameNode.text = "" then none
      else
        match nodeAt root c.dropLast with
        | some methodNode =>
          some { name := nameNode.text
                 doc_comment :=
                   extract_doc_comment ts.doc_query (prevSiblings root c.dropLast)
                 method_source_code := methodNode.text
                 node_id := c.dropLast
                 class_name := resolveEnclosingType c.dropLast (classPairs ts root) }
        | none => none
    | none => none)

/-- `Treesitter.parse`: the class pass followed by the method pass. -/
def parse (ts : Treesitter) (root : Tree) :
    List TreesitterClassNode × List TreesitterMethodNode :=
  (parseClasses ts root, parseMethods ts root)

/-- The Python-profile extractor instance. -/
def pythonTS : Treesitter :=
  { class_query := pyClassCaptures
    method_query := pyFunctionCaptures
    doc_query := pyDocCaptures }

/-! ## Profile registry and extractor construction (`LanguageEnum`,
`LANGUAGE_QUERIES`, `Treesitter.__init__`), and the per-query loop of
`p-2.py`'s `analyze_python_code`. -/

/-- The `LanguageEnum` of the source. -/
inductive LanguageEnum where
  | JAVA
  | PYTHON
  | RUST
  | JAVASCRIPT
  | UNKNOWN
deriving DecidableEq, Repr

/-- `LanguageEnum.value`. -/
def LanguageEnum.value : LanguageEnum → String
  | .JAVA => "java"
  | .PYTHON => "python"
  | .RUST => "rust"
  | .JAVASCRIPT => "javascript"
  | .UNKNOWN => "unknown"

/-- A structural pattern as handed to the external query engine: its source
text, whether the engine accepts it (a malformed pattern is rejected at
`Query(...)` construction), and its matching semantics when accepted. -/
structure RawPattern where
  src : String
  compiles : Bool
  sem : Tree → List (List Nat)

/-- One entry of `LANGUAGE_QUERIES`: the three structural patterns of a
language profile. -/
structure QueryConfig where
  class_query : RawPattern
  method_query : RawPattern
  doc_query : RawPattern

/-- The Python entry of `LANGUAGE_QUERIES`. -/
def pythonConfig : QueryConfig :=
  { class_query :=
      ⟨"(class_definition name: (identifier) @class.name)", true, pyClassCaptures⟩
    method_query :=
      ⟨"(function_definition name: (identifier) @function.name)", true, pyFunctionCaptures⟩
    doc_query :=
      ⟨"(expression_statement (string) @comment)", true, pyDocCaptures⟩ }

/-- The `LANGUAGE_QUERIES` table.  Every registered pattern is well-formed
(`compiles := true`); its semantics follow the pattern text.  `UNKNOWN` has
no entry (`dict.get` returns `None`). -/
def LANGUAGE_QUERIES_get : LanguageEnum → Option QueryConfig
  | .JAVA => some
      { class_query :=
          ⟨"(class_declaration name: (identifier) @class.name)", true,
            namedDeclCaptures ["class_declaration"] "identifier"⟩
        method_query :=
          ⟨"[(method_declaration name: (identifier) @method.name) (constructor_declaration name: (identifier) @method.name)]", true,
            namedDeclCaptures ["method_declaration", "constructor_declaration"] "identifier"⟩
        doc_query :=
          ⟨"((block_comment) @comment)", true, selfCaptures ["block_comment"]⟩ }
  | .PYTHON => some pythonConfig
  | .RUST => some
      { class_query :=
          ⟨"(struct_item name: (type_identifier) @class.name)", true,
            namedDeclCaptures ["struct_item"] "type_identifier"⟩
        method_query :=
          ⟨"(function_item name: (identifier) @function.name)", true,
            namedDeclCaptures ["function_item"] "identifier"⟩
        doc_query :=
          ⟨"[(line_comment) @comment (block_comment) @comment]", true,
            selfCaptures ["line_comment", "block_comment"]⟩ }
  | .JAVASCRIPT => some
      { class_query :=
          ⟨"(class_declaration name: (identifier) @class.name)", true,
            namedDeclCaptures ["class_declaration"] "identifier"⟩
        method_query :=
          ⟨"(method_definition name: (property_identifier) @method.name)", true,
            namedDeclCaptures ["method_definition"] "property_identifier"⟩
        doc_query :=
          ⟨"((comment) @comment)", true, selfCaptures ["comment"]⟩ }
  | .UNKNOWN => none

/-- The failure kinds that can escape extractor construction: the external
language pack's lookup failure from `get_parser`/`get_language`, the
`ValueError("Unsupported language: ...")` raised by `Treesitter.__init__`
itself, and a query-compilation failure from `Query(...)`. -/
inductive TSError where
  | packLookup (lang : String)
  | unsupportedLanguage (lang : String)
  | queryError (src : String)
deriving DecidableEq, Repr

/-- Modelled from the spec: the external `tree_sitter_language_pack` is "the
underlying parsing/query engine ... assumed correct and given"; it provides
parsers exactly for the four real languages of the profile table and fails
its lookup for anything else (in particular for `"unknown"`). -/
def packSupported : List String :=
  ["java", "python", "rust", "javascript"]

/-- Constructing a `Query` from a pattern: a malformed pattern raises. -/
def compileQuery (p : RawPattern) : Except TSError (Tree → List (List Nat)) :=
  if p.compiles then .ok p.sem else .error (.queryError p.src)

/-- The body of `Treesitter.__init__`, with the language-dependent inputs
made explicit: `get_parser`/`get_language` run first (raising the pack's
lookup error for a language the pack does not know), then the profile lookup
(raising `ValueError("Unsupported language: ...")` when `LANGUAGE_QUERIES`
has no entry), then the three `Query(...)` constructions in source order. -/
def treesitterInitCore (langValue : String) (supported : Bool)
    (cfg : Option QueryConfig) : Except TSError Treesitter :=
  if supported then
    match cfg with
    | none => .error (.unsupportedLanguage langValue)
    | some qc =>
      match compileQuery qc.class_query with
      | .error e => .error e
      | .ok cq =>
        match compileQuery qc.method_query with
        | .error e => .error e
        | .ok mq =>
          match compileQuery qc.doc_query with
          | .error e => .error e
          | .ok dq => .ok { class_query := cq, method_query := mq, doc_query := dq }
  else .error (.packLookup langValue)

/-- `Treesitter.__init__` / `Treesitter.create_treesitter`. -/
def treesitterInit (lang : LanguageEnum) : Except TSError Treesitter :=
  treesitterInitCore lang.value (decide (lang.value ∈ packSupported))
    (LANGUAGE_QUERIES_get lang)

/-- Construct an extractor from a profile (engine lookup succeeding) and run
it over a tree: the end-to-end extraction a caller of the `Treesitter` class
performs. -/
def extractWithConfig (cfg : QueryConfig) (root : Tree) :
    Except TSError (List TreesitterClassNode × List TreesitterMethodNode) :=
  match treesitterInitCore "python" true (some cfg) with
  | .error e => .error e
  | .ok ts => .ok (parse ts root)

/-- Insert a string into an already sorted list (model of Python `sorted`). -/
def insertSorted (x : String) : List String → List String
  | [] => [x]
  | y :: ys => if x ≤ y then x :: y :: ys else y :: insertSorted x ys

/-- Python's `sorted` on strings (insertion sort; on the duplicate-free
lists it is applied to, any sort yields the same list). -/
def sortStrings (l : List String) : List String :=
  l.foldr insertSorted []

/-- One iteration of `analyze_python_code`'s query loop (`p-2.py`): a
pattern that fails to compile reports an empty result; otherwise every
captured node with non-empty text contributes its stripped text, and the
result is `list(sorted(set(captured)))`. -/
def processQuery (root : Tree) (p : RawPattern) : List String :=
  if p.compiles then
    sortStrings (((p.sem root).filterMap (fun a =>
      match nodeAt root a with
      | some u => if u.text = "" then none else some (pyStrip u.text)
      | none => none)).eraseDups)
  else []

/-- The full query loop of `analyze_python_code`: each named query is
processed independently, in order. -/
def analyzeQueries (root : Tree) (queries : List (String × RawPattern)) :
    List (String × List String) :=
  queries.map (fun q => (q.1, processQuery root q.2))

/-! ## The end-to-end sample input of the spec (the `sample_python_code` of
`p-3.py`'s `main`), as the tree the external Python parser produces.  Node
texts are the exact source slices; docstring nodes of kind `string` carry
their quotes, as `node.text` does. -/

def modDocS : String := "\"\"\"A module-level docstring.\"\"\""

def classDocS : String := "\"\"\"This is the class docstring.\"\"\""

def ctorDocS : String := "\"\"\"The constructor docstring.\"\"\""

def methodDocS : String := "\"\"\"A method docstring.\"\"\""

def standaloneDocS : String := "\"\"\"A standalone function docstring.\"\"\""

def initSrcS : String :=
  "def __init__(self, name):\n        " ++ ctorDocS ++ "\n        self.name = name"

def greetSrcS : String :=
  "def greet(self):\n        " ++ methodDocS ++
    "\n        print(f\"Hello, \x7bself.name\x7d\")"

def standaloneSrcS : String :=
  "def standalone_function(x):\n    " ++ standaloneDocS ++ "\n    return x * 2"

def classBodyS : String :=
  classDocS ++ "\n    " ++ initSrcS ++ "\n\n    " ++ greetSrcS

def classSrcS : String := "class MyClass:\n    " ++ classBodyS

def sampleSourceS : String :=
  "\n" ++ modDocS ++ "\n" ++ classSrcS ++ "\n\n" ++ standaloneSrcS ++ "\n"

/-- The `function_definition` node of `__init__`. -/
def sampleInit : Tree :=
  tnode "function_definition" initSrcS
    [ tnode "def" "def" []
    , tnode "identifier" "__init__" []
    , tnode "parameters" "(self, name)"
        [ tnode "(" "(" []
        , tnode "identifier" "self" []
        , tnode "," "," []
        , tnode "identifier" "name" []
        , tnode ")" ")" [] ]
    , tnode ":" ":" []
    , tnode "block" (ctorDocS ++ "\n        self.name = name")
        [ tnode "expression_statement" ctorDocS [ tnode "string" ctorDocS [] ]
        , tnode "expression_statement" "self.name = name"
            [ tnode "assignment" "self.name = name"
                [ tnode "attribute" "self.name"
                    [ tnode "identifier" "self" []
                    , tnode "." "." []
                    , tnode "identifier" "name" [] ]
                , tnode "=" "=" []
                , tnode "identifier" "name" [] ] ] ] ]

/-- The `function_definition` node of `greet`. -/
def sampleGreet : Tree :=
  tnode "function_definition" greetSrcS
    [ tnode "def" "def" []
    , tnode "identifier" "greet" []
    , tnode "parameters" "(self)"
        [ tnode "(" "(" []
        , tnode "identifier" "self" []
        , tnode ")" ")" [] ]
    , tnode ":" ":" []
    , tnode "block" (methodDocS ++ "\n        print(f\"Hello, \x7bself.name\x7d\")")
        [ tnode "expression_statement" methodDocS [ tnode "string" methodDocS [] ]
        , tnode "expression_statement" "print(f\"Hello, \x7bself.name\x7d\")"
            [ tnode "call" "print(f\"Hello, \x7bself.name\x7d\")"
                [ tnode "identifier" "print" []
                , tnode "argument_list" "(f\"Hello, \x7bself.name\x7d\")"
                    [ tnode "(" "(" []
                    , tnode "string" "f\"Hello, \x7bself.name\x7d\"" []
                    , tnode ")" ")" [] ] ] ] ] ]

/-- The `class_definition` node of `MyClass`. -/
def sampleClass : Tree :=
  tnode "class_definition" classSrcS
    [ tnode "class" "class" []
    , tnode "identifier" "MyClass" []
    , tnode ":" ":" []
    , tnode "block" classBodyS
        [ tnode "expression_statement" classDocS [ tnode "string" classDocS [] ]
        , sampleInit
        , sampleGreet ] ]

/-- The `function_definition` node of `standalone_function`. -/
def sampleStandalone : Tree :=
  tnode "function_definition" standaloneSrcS
    [ tnode "def" "def" []
    , tnode "identifier" "standalone_function" []
    , tnode "parameters" "(x)"
        [ tnode "(" "(" []
        , tnode "identifier" "x" []
        , tnode ")" ")" [] ]
    , tnode ":" ":" []
    , tnode "block" (standaloneDocS ++ "\n    return x * 2")
        [ tnode "expression_statement" standaloneDocS
            [ tnode "string" standaloneDocS [] ]
        , tnode "return_statement" "return x * 2"
            [ tnode "return" "return" []
            , tnode "binary_operator" "x * 2"
                [ tnode "identifier" "x" []
                , tnode "*" "*" []
                , tnode "integer" "2" [] ] ] ] ]

/-- The `module` root node of the sample file. -/
def sampleTree : Tree :=
  tnode "module" sampleSourceS
    [ tnode "expression_statement" modDocS [ tnode "string" modDocS [] ]
    , sampleClass
    , sampleStandalone ]

/-- Modelled from the spec: the first line of a declaration's source text
(the "signature-only" member string §3 and §6 describe). -/
def firstLine (s : String) : String :=
  ⟨s.data.takeWhile (fun c => c != '\n')⟩

/-- Modelled from the spec: the number of syntactically distinct member
declarations in a type's body — the function definitions that are direct
statements of the class node's body block. -/
def memberDeclCount (classNode : Tree) : Nat :=
  match classNode.children.find? (fun c => c.kind == "block") with
  | some b => (b.children.filter (fun c => c.kind == "function_definition")).length
  | none => 0

/-- Whether the node at address `a` is a named function declaration: a
`function_definition` whose first `identifier` child has non-empty text —
the condition under which the scoped method query contributes one member
entry. -/
def namedFnAt (t : Tree) (a : List Nat) : Bool :=
  match nodeAt t a with
  | some u =>
    u.kind == "function_definition" &&
      (match u.children.findIdx? (fun c => c.kind == "identifier") with
       | some i =>
         match u.children[i]? with
         | some nameNode => nameNode.text != ""
         | none => false
       | none => false)
  | none => false

/-- The Python profile with its comment pattern malformed (unbalanced
parenthesis), the scenario of the spec's `QueryFailure` isolation clause:
`Query(...)` construction rejects the pattern. -/
def badDocPythonConfig : QueryConfig :=
  { class_query := pythonConfig.class_query
    method_query := pythonConfig.method_query
    doc_query :=
      ⟨"(expression_statement (string) @comment", false, pyDocCaptures⟩ }

/-- A class whose single member `f` contains a nested function definition
`g` (tree of `class C:` / `def f(self):` / `def g(): pass` / `return g`). -/
def nestedClass : Tree :=
  tnode "class_definition"
    "class C:\n    def f(self):\n        def g():\n            pass\n        return g"
    [ tnode "class" "class" []
    , tnode "identifier" "C" []
    , tnode ":" ":" []
    , tnode "block" "def f(self):\n        def g():\n            pass\n        return g"
        [ tnode "function_definition"
            "def f(self):\n        def g():\n            pass\n        return g"
            [ tnode "def" "def" []
            , tnode "identifier" "f" []
            , tnode "parameters" "(self)"
                [ tnode "(" "(" []
                , tnode "identifier" "self" []
                , tnode ")" ")" [] ]
            , tnode ":" ":" []
            , tnode "block" "def g():\n            pass\n        return g"
                [ tnode "function_definition" "def g():\n            pass"
                    [ tnode "def" "def" []
                    , tnode "identifier" "g" []
                    , tnode "parameters" "()"
                        [ tnode "(" "(" [], tnode ")" ")" [] ]
                    , tnode ":" ":" []
                    , tnode "block" "pass" [ tnode "pass_statement" "pass" [] ] ]
                , tnode "return_statement" "return g"
                    [ tnode "return" "return" []
                    , tnode "identifier" "g" [] ] ] ] ] ]

/-! ## Helper lemmas -/

lemma length_filterMap_eq (l : List α) (f : α → Option β) :
    (l.filterMap f).length = (l.filter (fun a => (f a).isSome)).length := by
  induction l with
  | nil => rfl
  | cons x xs ih =>
    cases hf : f x <;> simp [List.filterMap_cons, List.filter_cons, hf, ih]

lemma nodeAt_append (t : Tree) (a : List Nat) (i : Nat) :
    nodeAt t (a ++ [i]) = (nodeAt t a).bind (fun u => u.children[i]?) := by
  induction a generalizing t with
  | nil =>
    cases h : t.children[i]? <;> simp [nodeAt, h]
  | cons j a' ih =>
    simp only [List.cons_append, nodeAt]
    cases h : t.children[j]? <;> simp [h, ih]

lemma findIdx?_some_spec {α} (p : α → Bool) (l : List α) (i : Nat)
    (h : l.findIdx? p = some i) : ∃ c, l[i]? = some c ∧ p c = true := by
  obtain ⟨hlt, hidx⟩ := List.findIdx?_eq_some_iff_findIdx_eq.mp h
  subst hidx
  exact ⟨l[l.findIdx p], List.getElem?_eq_getElem hlt, List.findIdx_getElem (w := hlt)⟩

lemma stripList_append_newline (l : List Char) :
    stripList (l ++ ['\n']) = stripList l := by
  unfold stripList
  rw [List.dropWhile_append]
  split
  · rename_i h
    rw [List.isEmpty_iff] at h
    rw [h]
    simp [List.dropWhile_cons]
  · rw [List.reverse_append]
    simp [List.dropWhile_cons]

lemma pyStrip_append_newline (s : String) : pyStrip (s ++ "\n") = pyStrip s := by
  unfold pyStrip
  have h : (s ++ "\n").data = s.data ++ ['\n'] := by
    rw [String.data_append]
  rw [h, stripList_append_newline]

lemma prefix_dropLast_iff (anc cur : List Nat) (h : cur ≠ []) :
    anc <+: cur.dropLast ↔ (anc <+: cur ∧ anc ≠ cur) := by
  have hpos : 0 < cur.length := List.length_pos.mpr h
  constructor
  · intro hp
    have h1 : anc <+: cur := hp.trans (List.dropLast_prefix cur)
    have h2 : anc.length ≤ cur.dropLast.length := hp.length_le
    rw [List.length_dropLast] at h2
    exact ⟨h1, fun he => by subst he; omega⟩
  · rintro ⟨hp, hne⟩
    have hlen : anc.length < cur.length :=
      lt_of_le_of_ne hp.length_le (fun he => hne (hp.eq_of_length he))
    refine List.prefix_of_prefix_length_le hp (List.dropLast_prefix cur) ?_
    rw [List.length_dropLast]
    omega

lemma walkUpGo_iff (anc : List Nat) :
    ∀ (n : Nat) (cur : List Nat), cur.length ≤ n →
      (walkUpGo anc n cur = true ↔ anc <+: cur) := by
  intro n
  induction n with
  | zero =>
    intro cur hlen
    have : cur = [] := List.eq_nil_of_length_eq_zero (Nat.le_zero.mp hlen)
    subst this
    simp only [walkUpGo, beq_iff_eq, List.prefix_nil]
    exact eq_comm
  | succ n ih =>
    intro cur hlen
    by_cases hca : cur = anc
    · subst hca
      simp [walkUpGo]
    · by_cases hnil : cur = []
      · subst hnil
        rw [walkUpGo]
        simp only [Bool.or_eq_true, beq_iff_eq, List.dropLast_nil]
        rw [ih [] (by simp)]
        constructor
        · rintro (he | hp)
          · exact absurd he hca
          · exact hp
        · intro hp
          exact Or.inr hp
      · have hdl : cur.dropLast.length ≤ n := by
          rw [List.length_dropLast]
          omega
        rw [walkUpGo]
        simp only [Bool.or_eq_true, beq_iff_eq]
        rw [ih cur.dropLast hdl, prefix_dropLast_iff anc cur hnil]
        constructor
        · rintro (he | ⟨hp, _⟩)
          · exact absurd he hca
          · exact hp
        · intro hp
          exact Or.inr ⟨hp, fun he => hca he.symm⟩

lemma is_descendant_iff (node ancestor : List Nat) :
    is_descendant_of node ancestor = true ↔ (ancestor <+: node ∧ ancestor ≠ node) := by
  cases node with
  | nil =>
    simp only [is_descendant_of, List.prefix_nil]
    constructor
    · intro h; exact absurd h (by simp)
    · rintro ⟨he, hne⟩; exact absurd he hne
  | cons x xs =>
    unfold is_descendant_of walkUp
    rw [walkUpGo_iff ancestor _ _ (le_refl _)]
    exact prefix_dropLast_iff ancestor (x :: xs) (by simp)

lemma find?_append_first {α} (p : α → Bool) (pre : List α) (x : α) (post : List α)
    (hpre : ∀ q ∈ pre, p q = false) (hx : p x = true) :
    (pre ++ x :: post).find? p = some x := by
  induction pre with
  | nil => simp [List.find?_cons_of_pos, hx]
  | cons q rest ih =>
    have hq : p q = false := hpre q (by simp)
    rw [List.cons_append, List.find?_cons_of_neg _ (by simp [hq])]
    exact ih (fun r hr => hpre r (by simp [hr]))

/-! ## Claims -/

/-- C9.  `_is_descendant_of(node, ancestor)` is true exactly when `ancestor`
lies on `node`'s parent chain — with node identity as tree addresses and
`parent = dropLast`, exactly when `ancestor` is a proper prefix of `node`'s
address; and the enclosing-type loop of `parse` returns the name recorded
for the first known class node (in discovery order) that the descendant
test accepts, and nothing when no known class node passes it. -/
theorem c9_ancestry_resolution (n : List Nat) :
    (∀ a, is_descendant_of n a = true ↔ (a <+: n ∧ a ≠ n)) ∧
    (∀ pre p post,
        (∀ q ∈ pre, is_descendant_of n q.1 = false) →
        is_descendant_of n p.1 = true →
        resolveEnclosingType n (pre ++ p :: post) = some p.2) ∧
    (∀ cls, (∀ q ∈ cls, is_descendant_of n q.1 = false) →
        resolveEnclosingType n cls = none) := by
  refine ⟨fun a => is_descendant_iff n a, ?_, ?_⟩
  · intro pre p post hpre hp
    unfold resolveEnclosingType
    rw [find?_append_first (fun q => is_descendant_of n q.1) pre p post hpre hp]
  · intro cls hcls
    unfold resolveEnclosingType
    rw [List.find?_eq_none.mpr (fun q hq => by simp [hcls q hq])]

/-- Witness for C9 at concrete inputs: the node at address `[0, 1]` is a
descendant of the node at `[0]`, and the resolution loop picks the first
matching class node, skipping a non-enclosing one. -/
theorem c9_ancestry_resolution_witness :
    is_descendant_of [0, 1] [0] = true ∧
    resolveEnclosingType [0, 1] [([5], "Other"), ([0], "MyClass")] = some "MyClass" := by
  constructor
  · exact ((c9_ancestry_resolution [0, 1]).1 [0]).mpr (by constructor <;> decide)
  · exact (c9_ancestry_resolution [0, 1]).2.1 [([5], "Other")] ([0], "MyClass") []
      (by decide) (by decide)

/-- C10.  The descendant relation is irreflexive: the walk starts at the
node's parent, so `_is_descendant_of(node, node)` is false for every node,
and a type declaration node is never reported as enclosed by itself. -/
theorem c10_descendant_irreflexive (addr : List Nat) :
    is_descendant_of addr addr = false := by
  cases h : is_descendant_of addr addr
  · rfl
  · exact absurd rfl ((is_descendant_iff addr addr).mp h).2

/-- C4.  A declaration none of whose preceding siblings yields any
documentation capture resolves to the empty string: `_extract_doc_comment`
is total (it can neither return `None` nor raise) and returns `''` here. -/
theorem c4_doc_absence (docq : Tree → List (List Nat)) (prevs : List Tree)
    (h : ∀ t ∈ prevs, docq t = []) :
    extract_doc_comment docq prevs = "" := by
  have hloop : docLoop docq prevs "" = "" := by
    induction prevs with
    | nil => rfl
    | cons t rest ih =>
      have ht : docq t = [] := h t (by simp)
      rw [docLoop]
      simp only [ht, List.foldl_nil, List.isEmpty_nil, if_true]
      split
      · exact ih (fun u hu => h u (by simp [hu]))
      · rfl
  unfold extract_doc_comment
  rw [hloop]
  rfl

/-- Witness for C4: a single preceding `pass` statement yields no Python
doc-query capture, and the resolver returns the empty string on it. -/
theorem c4_doc_absence_witness :
    extract_doc_comment pyDocCaptures [tnode "pass_statement" "pass" []] = "" :=
  c4_doc_absence pyDocCaptures [tnode "pass_statement" "pass" []] (by decide)

/-- C3.  A declaration immediately preceded by two contiguous
comment-yielding siblings (`c1` before `c2`, `c2` nearest the declaration,
each yielding exactly one capture with non-empty text), with the walk
terminating right after them (no further sibling, or a capture-free,
non-transparent one), resolves to the two captured texts newline-joined in
source order and stripped. -/
theorem c3_doc_contiguity (docq : Tree → List (List Nat)) (c1 c2 : Tree)
    (rest : List Tree) (a1 a2 : List Nat) (s1 s2 : Tree)
    (h2 : docq c2 = [a2]) (g2 : nodeAt c2 a2 = some s2) (t2 : s2.text ≠ "")
    (h1 : docq c1 = [a1]) (g1 : nodeAt c1 a1 = some s1) (t1 : s1.text ≠ "")
    (hrest : rest = [] ∨
      ∃ r rs, rest = r :: rs ∧ docq r = [] ∧ r.kind ∉ transparentKinds) :
    extract_doc_comment docq (c2 :: c1 :: rest) =
      pyStrip (s1.text ++ "\n" ++ s2.text) := by
  unfold extract_doc_comment
  have step2 : docLoop docq (c2 :: c1 :: rest) "" =
      docLoop docq (c1 :: rest) (s2.text ++ "\n" ++ "") := by
    rw [docLoop]
    simp only [h2, List.foldl_cons, List.foldl_nil, g2, t2, if_neg t2,
      List.isEmpty_cons, if_false]
    rw [if_neg Bool.false_ne_true]
  have step1 : docLoop docq (c1 :: rest) (s2.text ++ "\n" ++ "") =
      docLoop docq rest (s1.text ++ "\n" ++ (s2.text ++ "\n" ++ "")) := by
    rw [docLoop]
    simp only [h1, List.foldl_cons, List.foldl_nil, g1, t1, if_neg t1,
      List.isEmpty_cons, if_false]
    rw [if_neg Bool.false_ne_true]
  have step0 : docLoop docq rest (s1.text ++ "\n" ++ (s2.text ++ "\n" ++ "")) =
      s1.text ++ "\n" ++ (s2.text ++ "\n" ++ "") := by
    rcases hrest with hnil | ⟨r, rs, hrr, hr0, hrk⟩
    · rw [hnil]
      rfl
    · rw [hrr, docLoop]
      simp only [hr0, List.foldl_nil, List.isEmpty_nil, if_true]
      rw [if_neg]
      simpa using hrk
  rw [step2, step1, step0]
  have hs : s1.text ++ "\n" ++ (s2.text ++ "\n" ++ "") =
      (s1.text ++ "\n" ++ s2.text) ++ "\n" := by
    have he : s2.text ++ "\n" ++ "" = s2.text ++ "\n" := by
      apply String.ext
      simp [String.data_append]
    rw [he]
    apply String.ext
    simp [String.data_append]
  rw [hs, pyStrip_append_newline]

/-- C2.  Referential integrity of `parse`: the enclosing-type name of a
method record is only ever taken from the `(class node, name)` pairs the
class pass recorded, and each recorded pair corresponds to a
`TreesitterClassNode` in the same result, so every method whose
`class_name` is non-null names a class present in the result. -/
theorem c2_referential_integrity (ts : Treesitter) (root : Tree)
    (m : TreesitterMethodNode) (hm : m ∈ (parse ts root).2)
    (n : String) (hn : m.class_name = some n) :
    ∃ c ∈ (parse ts root).1, c.name = n := by
  show ∃ c ∈ parseClasses ts root, c.name = n
  replace hm : m ∈ parseMethods ts root := hm
  unfold parseMethods at hm
  rw [List.mem_filterMap] at hm
  obtain ⟨cap, _, hf⟩ := hm
  have hres : resolveEnclosingType cap.dropLast (classPairs ts root) = some n := by
    split at hf
    · rename_i nameNode h1
      split at hf
      · exact absurd hf (by simp)
      · split at hf
        · rename_i methodNode h2
          injection hf with hf
          subst hf
          exact hn
        · exact absurd hf (by simp)
    · exact absurd hf (by simp)
  unfold resolveEnclosingType at hres
  split at hres
  · rename_i p hfind
    injection hres with hres
    have hp : p ∈ classPairs ts root := List.mem_of_find?_eq_some hfind
    unfold classPairs at hp
    rw [List.mem_map] at hp
    obtain ⟨cr, hcr, hpr⟩ := hp
    refine ⟨cr, hcr, ?_⟩
    rw [← hres, ← hpr]
  · exact absurd hres (by simp)

/-- Witness for C2: in the sample extraction, the `__init__` method record
carries `class_name = some "MyClass"`, and a class of that name is in the
result. -/
theorem c2_referential_integrity_witness :
    ∃ c ∈ (parse pythonTS sampleTree).1, c.name = "MyClass" := by
  refine c2_referential_integrity pythonTS sampleTree
    { name := "__init__"
      doc_comment := classDocS
      method_source_code := initSrcS
      node_id := [1, 3, 1]
      class_name := some "MyClass" } ?_ "MyClass" rfl
  decide

/-- Witness for C3: two concrete comment-line siblings (nearest first, as
the sibling walk sees them) joined in source order. -/
theorem c3_doc_contiguity_witness :
    extract_doc_comment (selfCaptures ["comment"])
      [tnode "comment" "# second line" [], tnode "comment" "# first line" []] =
      "# first line\n# second line" := by
  rw [c3_doc_contiguity (selfCaptures ["comment"])
    (tnode "comment" "# first line" []) (tnode "comment" "# second line" [])
    [] [] [] (tnode "comment" "# first line" []) (tnode "comment" "# second line" [])
    (by decide) rfl (by decide) (by decide) rfl (by decide)
    (Or.inl rfl)]
  decide

/-- Counterexample to C5: in the sample class, the recorded member entries
are the full multi-line declaration texts, and the full text of `__init__`
is not its first line. -/
theorem c5_counterexample :
    extract_methods_in_class pythonTS sampleClass = [initSrcS, greetSrcS] ∧
    firstLine initSrcS = "def __init__(self, name):" ∧
    firstLine initSrcS ≠ initSrcS := by
  refine ⟨by decide, by decide, by decide⟩

/-- C5 as amended: each entry of a type's member listing is the full source
text (`node.parent.text`) of the corresponding member declaration matched by
the scoped method query, not just its first line. -/
theorem c5_members_full_text (ts : Treesitter) (t : Tree) (m : String)
    (hm : m ∈ extract_methods_in_class ts t) :
    ∃ a ∈ ts.method_query t, ∃ p, nodeAt t a.dropLast = some p ∧ m = p.text := by
  unfold extract_methods_in_class at hm
  rw [List.mem_filterMap] at hm
  obtain ⟨cap, hcap, hf⟩ := hm
  refine ⟨cap, hcap, ?_⟩
  split at hf
  · rename_i nameNode h1
    split at hf
    · exact absurd hf (by simp)
    · split at hf
      · rename_i p h2
        injection hf with hf
        exact ⟨p, h2, hf.symm⟩
      · exact absurd hf (by simp)
  · exact absurd hf (by simp)

/-- Witness for C5 (amended): the `__init__` member entry of the sample
class is the full text of a declaration node matched in the class scope. -/
theorem c5_members_full_text_witness :
    ∃ a ∈ pythonTS.method_query sampleClass, ∃ p,
      nodeAt sampleClass a.dropLast = some p ∧ initSrcS = p.text :=
  c5_members_full_text pythonTS sampleClass initSrcS (by decide)

/-- Counterexample to C6: `nestedClass` has exactly one syntactically
distinct member declaration in its body, but the scoped method query also
matches the function definition nested inside that member, so the member
listing has two entries. -/
theorem c6_counterexample :
    memberDeclCount nestedClass = 1 ∧
    (extract_methods_in_class pythonTS nestedClass).length = 2 := by
  refine ⟨by decide, by decide⟩

/-- C6 as amended: the member listing of a type has exactly one entry per
named function definition occurring anywhere in the type's subtree
(nested function definitions included), so it has exactly N entries for a
type with N members only when no member contains a nested function
definition. -/
theorem c6_member_count (t : Tree) :
    (extract_methods_in_class pythonTS t).length =
      ((subAddrs t).filter (fun a => namedFnAt t a)).length := by
  unfold extract_methods_in_class pythonTS pyFunctionCaptures namedDeclCaptures
  rw [List.filterMap_filterMap, length_filterMap_eq]
  congr 1
  apply List.filter_congr
  intro a _
  cases h1 : nodeAt t a with
  | none => simp [namedFnAt, h1]
  | some u =>
    by_cases hk : u.kind = "function_definition"
    · cases h2 : u.children.findIdx? (fun c => c.kind == "identifier") with
      | none => simp [namedFnAt, h1, hk, h2]
      | some i =>
        obtain ⟨c, hc, hpc⟩ :=
          findIdx?_some_spec (fun c => c.kind == "identifier") u.children i h2
        have h3 : nodeAt t (a ++ [i]) = some c := by
          rw [nodeAt_append, h1]
          exact hc
        have h4 : (a ++ [i]).dropLast = a := List.dropLast_concat
        by_cases ht : c.text = ""
        · simp [namedFnAt, h1, hk, h2, h3, hc, ht]
        · simp [namedFnAt, h1, hk, h2, h3, h4, hc, ht]
    · simp [namedFnAt, h1, hk]

/-- Counterexample to C7: with only the comment pattern of the Python
profile malformed, `Treesitter.__init__` raises at `Query(...)` construction
and the whole extraction fails — no classes are extracted — although the
same tree yields the class `MyClass` under the intact profile. -/
theorem c7_counterexample :
    extractWithConfig badDocPythonConfig sampleTree =
      .error (.queryError "(expression_statement (string) @comment") ∧
    (extractWithConfig pythonConfig sampleTree).map
        (fun r => r.1.map (fun c => c.name)) = .ok ["MyClass"] := by
  refine ⟨rfl, rfl⟩

/-- C7 as amended: per-pattern isolation holds in the standalone analyzer
(`p-2.py`), whose loop compiles and runs each query independently — a
pattern that fails to compile contributes an empty result list and every
other query's result is exactly what it would be on its own; in the
profile-based extractor a malformed pattern instead aborts construction. -/
theorem c7_per_query_isolation (root : Tree) (qs1 qs2 : List (String × RawPattern))
    (nm : String) (p : RawPattern) :
    analyzeQueries root (qs1 ++ (nm, p) :: qs2) =
      analyzeQueries root qs1 ++
        (nm, processQuery root p) :: analyzeQueries root qs2 ∧
    (p.compiles = false → processQuery root p = []) := by
  constructor
  · unfold analyzeQueries
    simp [List.map_append]
  · intro h
    unfold processQuery
    simp [h]

/-- Witness for C7 (amended): a malformed comment pattern in the analyzer's
query list yields an empty result for itself and leaves the class query's
result untouched. -/
theorem c7_per_query_isolation_witness :
    analyzeQueries sampleTree
        ([("Classes", pythonConfig.class_query)] ++
          ("Comments", badDocPythonConfig.doc_query) :: []) =
      analyzeQueries sampleTree [("Classes", pythonConfig.class_query)] ++
        ("Comments", processQuery sampleTree badDocPythonConfig.doc_query) ::
          analyzeQueries sampleTree [] ∧
    processQuery sampleTree badDocPythonConfig.doc_query = [] := by
  obtain ⟨h1, h2⟩ := c7_per_query_isolation sampleTree
    [("Classes", pythonConfig.class_query)] [] "Comments"
    badDocPythonConfig.doc_query
  exact ⟨h1, h2 rfl⟩

/-- Counterexample to C8: for the one identifier with no registered profile
(`UNKNOWN`), `get_parser`/`get_language` run before the profile check and
the external pack's lookup failure fires, so the error is not the
`UnsupportedLanguage` (`ValueError`) one. -/
theorem c8_counterexample :
    treesitterInit .UNKNOWN = .error (.packLookup "unknown") ∧
    TSError.packLookup "unknown" ≠ TSError.unsupportedLanguage "unknown" := by
  exact ⟨rfl, by decide⟩

/-- C8 as amended: requesting extraction for a language with no registered
profile fails — construction returns an error and no extractor exists, so
no partial work is possible — and the failure is the `UnsupportedLanguage`
error exactly when the external engine supplies a parser for the
identifier; for `unknown` the engine's lookup error preempts it. -/
theorem c8_no_profile_fails (lang : LanguageEnum)
    (h : LANGUAGE_QUERIES_get lang = none) :
    (∃ e, treesitterInit lang = .error e) ∧
    treesitterInitCore lang.value true none =
      .error (.unsupportedLanguage lang.value) := by
  refine ⟨?_, rfl⟩
  cases lang
  case UNKNOWN => exact ⟨.packLookup "unknown", rfl⟩
  all_goals exact absurd h (by simp [LANGUAGE_QUERIES_get])

/-- Witness for C8 (amended), at the concrete `UNKNOWN` language. -/
theorem c8_no_profile_fails_witness :
    (∃ e, treesitterInit .UNKNOWN = .error e) ∧
    treesitterInitCore LanguageEnum.UNKNOWN.value true none =
      .error (.unsupportedLanguage LanguageEnum.UNKNOWN.value) :=
  c8_no_profile_fails .UNKNOWN rfl

/-- C1, evaluated: on the spec's end-to-end sample the structural claims
hold (one class `MyClass` with two member entries; `__init__` and `greet`
enclosed by `MyClass`, `standalone_function` free), but the documentation
diverges from the claim: the sibling walk attaches the docstrings that
precede each declaration (quotes included), never the declaration's own
docstring — `__init__` gets the class docstring, `greet` the class and
constructor docstrings, `standalone_function` the module, method,
constructor and class docstrings. -/
theorem c1_sample_divergence :
    treesitterInit .PYTHON = .ok pythonTS ∧
    (parse pythonTS sampleTree).1.map
        (fun c => (c.name, c.method_declarations.length)) = [("MyClass", 2)] ∧
    (parse pythonTS sampleTree).2.map (fun m => (m.name, m.class_name)) =
      [("__init__", some "MyClass"), ("greet", some "MyClass"),
       ("standalone_function", none)] ∧
    (parse pythonTS sampleTree).2.map (fun m => m.doc_comment) =
      [classDocS, classDocS ++ "\n" ++ ctorDocS,
       modDocS ++ "\n" ++ methodDocS ++ "\n" ++ ctorDocS ++ "\n" ++ classDocS] ∧
    (parse pythonTS sampleTree).2.map (fun m => m.doc_comment) ≠
      ["The constructor docstring.", "A method docstring.",
       "A standalone function docstring."] := by
  refine ⟨rfl, by decide, by decide, by decide, by decide⟩

end DevCoder
